import Mathlib

/-!
# Verification of the typeref-mcp project index cache

Shallow embedding of the cache components of the `typeref-mcp` repository:

* `MemoryCache` (src/core/MemoryCache.ts) — the hot in-process cache.
  A JavaScript `Map` is modelled as an insertion-ordered association
  list with unique keys (`mlookup`/`mset`/`mdel` mirror `Map.get`,
  `Map.set` and `Map.delete`); `Date.now()` is passed explicitly as a
  `now : Int` argument at every point where the source calls it.
* `DiskCache` (src/core/DiskCache.ts) — the JSON cold store.
* `ParquetCache` (ParquetCache.ts) — the columnar cold store.
* the cache-check / build / store sequence of
  `TypeScriptAdapter.indexProject` (src/adapters/TypeScriptAdapter.ts),
  modelled as a small-step machine over the JavaScript event loop.

File contents are modelled structurally: a file either holds a value
that parses to the expected shape, or is present but unreadable or
not of that shape (`DiskFile.other`).  `path.join` is modelled as
slash concatenation (all roots are absolute paths without a trailing
slash).  `JSON.stringify`/`JSON.parse` on plain JSON data (strings,
numbers, booleans, arrays, objects without `undefined` tricks) is the
identity on the modelled content and is embedded as such.
-/

/-! ## Association lists modelling JavaScript `Map` -/

/-- `Map.get`: the value stored at `k` (first occurrence). -/
def mlookup {α : Type} (k : String) : List (String × α) → Option α
  | [] => none
  | (k', v) :: t => if k' = k then some v else mlookup k t

/-- `Map.set`: replace the value in place if the key is present
(keeping its position), otherwise append the new entry. -/
def mset {α : Type} (k : String) (v : α) : List (String × α) → List (String × α)
  | [] => [(k, v)]
  | (k', v') :: t => if k' = k then (k, v) :: t else (k', v') :: mset k v t

/-- `Map.delete`: remove the entry with key `k`. -/
def mdel {α : Type} (k : String) (l : List (String × α)) : List (String × α) :=
  l.filter (fun kv => kv.1 ≠ k)

/-- The keys of the map, in insertion order. -/
def mkeys {α : Type} (l : List (String × α)) : List String :=
  l.map Prod.fst

@[simp] theorem mlookup_nil {α : Type} (k : String) :
    mlookup (α := α) k [] = none := rfl

theorem mlookup_cons {α : Type} (k k' : String) (v : α) (t : List (String × α)) :
    mlookup k ((k', v) :: t) = if k' = k then some v else mlookup k t := rfl

theorem mlookup_mset_self {α : Type} (k : String) (v : α) (l : List (String × α)) :
    mlookup k (mset k v l) = some v := by
  induction l with
  | nil => simp [mset, mlookup]
  | cons h t ih =>
    obtain ⟨k', v'⟩ := h
    by_cases hk : k' = k
    · simp [mset, hk, mlookup]
    · simp [mset, hk, mlookup, ih]

theorem mlookup_mset_ne {α : Type} {k k₂ : String} (h : k₂ ≠ k) (v : α)
    (l : List (String × α)) : mlookup k (mset k₂ v l) = mlookup k l := by
  induction l with
  | nil => simp [mset, mlookup, h]
  | cons hd t ih =>
    obtain ⟨k', v'⟩ := hd
    by_cases hk : k' = k₂
    · subst hk
      simp [mset, mlookup, h]
    · simp [mset, hk, mlookup, ih]

theorem mlookup_mdel_self {α : Type} (k : String) (l : List (String × α)) :
    mlookup k (mdel k l) = none := by
  induction l with
  | nil => simp [mdel]
  | cons hd t ih =>
    obtain ⟨k', v'⟩ := hd
    by_cases hk : k' = k
    · simpa [mdel, hk] using ih
    · simpa [mdel, hk, mlookup, List.filter] using ih

theorem mlookup_mdel_ne {α : Type} {k k₂ : String} (h : k₂ ≠ k)
    (l : List (String × α)) : mlookup k (mdel k₂ l) = mlookup k l := by
  induction l with
  | nil => simp [mdel]
  | cons hd t ih =>
    obtain ⟨k', v'⟩ := hd
    by_cases hk : k' = k₂
    · subst hk
      have hdel : mdel k' ((k', v') :: t) = mdel k' t := by simp [mdel]
      rw [hdel, ih, mlookup_cons, if_neg h]
    · have hd : mdel k₂ ((k', v') :: t) = (k', v') :: mdel k₂ t := by
        simp [mdel, hk]
      by_cases hk2 : k' = k
      · rw [hd, mlookup_cons, mlookup_cons, if_pos hk2, if_pos hk2]
      · rw [hd, mlookup_cons, mlookup_cons, if_neg hk2, if_neg hk2, ih]

theorem mlookup_eq_none_iff {α : Type} (k : String) (l : List (String × α)) :
    mlookup k l = none ↔ k ∉ mkeys l := by
  induction l with
  | nil => simp [mkeys]
  | cons hd t ih =>
    obtain ⟨k', v'⟩ := hd
    by_cases hk : k' = k
    · simp [mlookup, hk, mkeys]
    · simp [mlookup, hk, mkeys, Ne.symm hk] at ih ⊢
      exact ih

theorem mlookup_foldl_mdel {α : Type} (ks : List String) (l : List (String × α))
    (k : String) :
    mlookup k (ks.foldl (fun acc kk => mdel kk acc) l) =
      if k ∈ ks then none else mlookup k l := by
  induction ks generalizing l with
  | nil => simp
  | cons k0 kt ih =>
    by_cases hk : k ∈ kt
    · simp [List.foldl_cons, ih, hk]
    · by_cases hk0 : k = k0
      · subst hk0
        simp [List.foldl_cons, ih, hk, mlookup_mdel_self]
      · simp [List.foldl_cons, ih, hk, hk0,
          mlookup_mdel_ne (fun h => hk0 h.symm)]

theorem mset_of_not_mem {α : Type} {k : String} {l : List (String × α)}
    (h : k ∉ mkeys l) (v : α) : mset k v l = l ++ [(k, v)] := by
  induction l with
  | nil => simp [mset]
  | cons hd t ih =>
    obtain ⟨k', v'⟩ := hd
    rw [show mkeys ((k', v') :: t) = k' :: mkeys t from rfl] at h
    simp only [List.mem_cons, not_or] at h
    have h1 : ¬ k' = k := fun hh => h.1 hh.symm
    simp [mset, h1, ih h.2]

/-- `Object.fromEntries` / `new Map(entries)`: build a map by inserting
each entry in order (later entries overwrite earlier ones in place). -/
def jsFromEntries {α : Type} (l : List (String × α)) : List (String × α) :=
  l.foldl (fun acc kv => mset kv.1 kv.2 acc) []

theorem jsFromEntries_aux {α : Type} (l acc : List (String × α))
    (h : (mkeys (acc ++ l)).Nodup) :
    l.foldl (fun acc kv => mset kv.1 kv.2 acc) acc = acc ++ l := by
  induction l generalizing acc with
  | nil => simp
  | cons hd t ih =>
    obtain ⟨k, v⟩ := hd
    have hknotin : k ∉ mkeys acc := by
      have : mkeys (acc ++ (k, v) :: t) = mkeys acc ++ k :: mkeys t := by
        simp [mkeys]
      rw [this] at h
      have := List.nodup_append.mp h
      intro hc
      exact this.2.2 hc (by simp)
    rw [List.foldl_cons, mset_of_not_mem hknotin]
    have happ : (acc ++ [(k, v)]) ++ t = acc ++ (k, v) :: t := by simp
    rw [ih (acc ++ [(k, v)]) (by rw [happ]; exact h), happ]

/-- On a map with no duplicate keys (every JavaScript `Map`),
round-tripping through entries is the identity. -/
theorem jsFromEntries_eq_self {α : Type} (l : List (String × α))
    (h : (mkeys l).Nodup) : jsFromEntries l = l := by
  simpa [jsFromEntries] using jsFromEntries_aux l [] (by simpa using h)

/-! ## Glob patterns (`MemoryCache.createPatternRegex`)

`createPatternRegex` escapes every regex metacharacter except `*` and
`?`, turns `*` into `.*` and `?` into `.`, and anchors the whole thing
as `` ^...$ ``.  The resulting JavaScript regex therefore denotes:
a literal character for every pattern character other than `*`/`?`,
`.` (any single character except a line terminator) for `?`, and
`.*` (any run of non-line-terminator characters) for `*`, matched
against the whole key (`$` without the `m` flag is strict end of
input).  `gmatch` is that denotation. -/

/-- One compiled token of the pattern regex. -/
inductive GTok where
  | star
  | anyc
  | lit (c : Char)
  deriving DecidableEq, Repr

/-- JavaScript `.` (no `s` flag) matches any character except the four
ECMAScript line terminators. -/
def isLineTerm (c : Char) : Bool :=
  c = '\n' || c = '\r' || c = '\u2028' || c = '\u2029'

/-- Compilation of one pattern character: `*` → `.*`, `?` → `.`,
everything else (after escaping) is a literal. -/
def charToTok (c : Char) : GTok :=
  if c = '*' then .star else if c = '?' then .anyc else .lit c

def patternToToks (p : String) : List GTok :=
  p.data.map charToTok

/-- The suffixes of `ks` reachable by letting `.*` greedily or lazily
consume a (possibly empty) run of non-line-terminator characters. -/
def starSuffixes : List Char → List (List Char)
  | [] => [[]]
  | d :: ds => (d :: ds) :: (if isLineTerm d then [] else starSuffixes ds)

/-- Matching of the compiled anchored regex against a whole key. -/
def gmatch : List GTok → List Char → Bool
  | [], ks => ks.isEmpty
  | .lit c :: ps, ks =>
    match ks with
    | [] => false
    | d :: ds => c = d && gmatch ps ds
  | .anyc :: ps, ks =>
    match ks with
    | [] => false
    | d :: ds => !isLineTerm d && gmatch ps ds
  | .star :: ps, ks => (starSuffixes ks).any (fun ks' => gmatch ps ks')

/-- `createPatternRegex(pattern).test(key)`. -/
def gmatchStr (p k : String) : Bool :=
  gmatch (patternToToks p) k.data

/-! ## MemoryCache (src/core/MemoryCache.ts) -/

/-- `CacheEntry` (src/types.ts); the stored value is opaque and
modelled as a `Nat`. -/
structure MemEntry where
  data : Nat
  timestamp : Int
  ttl : Int
  deriving DecidableEq, Repr

/-- The state of a `MemoryCache` instance: the `cache` map, the three
`stats` counters, and the constructor parameters. -/
structure MemoryCache where
  cache : List (String × MemEntry)
  hits : Nat
  misses : Nat
  evictions : Nat
  maxSize : Nat
  defaultTTL : Int
  deriving DecidableEq, Repr

/-- `MemoryCache.get`.  Returns the updated state and the result
(`none` models `null`). -/
def mcGet (mc : MemoryCache) (key : String) (now : Int) :
    MemoryCache × Option Nat :=
  match mlookup key mc.cache with
  | none => ({ mc with misses := mc.misses + 1 }, none)
  | some entry =>
    if now > entry.timestamp + entry.ttl then
      ({ mc with cache := mdel key mc.cache, misses := mc.misses + 1 }, none)
    else
      ({ mc with hits := mc.hits + 1 }, some entry.data)

/-- The scan of `evictOldest`: `oldestTime` starts at `Date.now()` and
is only updated on a strictly smaller timestamp. -/
def findOldest (now : Int) (l : List (String × MemEntry)) :
    Option String × Int :=
  l.foldl
    (fun acc kv =>
      if kv.2.timestamp < acc.2 then (some kv.1, kv.2.timestamp) else acc)
    (none, now)

/-- `MemoryCache.evictOldest`.  The final `if (oldestKey)` is a
truthiness test: `null` and the empty string both skip the delete. -/
def mcEvictOldest (mc : MemoryCache) (now : Int) : MemoryCache :=
  if mc.cache.length = 0 then mc
  else
    match (findOldest now mc.cache).1 with
    | some k =>
      if k ≠ "" then
        { mc with cache := mdel k mc.cache, evictions := mc.evictions + 1 }
      else mc
    | none => mc

/-- `MemoryCache.set`.  `ttl?` is the optional JS argument; the source
stores `ttl || this.defaultTTL`, so an explicit `0` also falls back to
the default. -/
def mcSet (mc : MemoryCache) (key : String) (data : Nat)
    (ttl? : Option Int) (now : Int) : MemoryCache :=
  let mc1 := if mc.cache.length ≥ mc.maxSize then mcEvictOldest mc now else mc
  let t :=
    match ttl? with
    | some t => if t = 0 then mc.defaultTTL else t
    | none => mc.defaultTTL
  { mc1 with cache := mset key ⟨data, now, t⟩ mc1.cache }

/-- `MemoryCache.invalidate`: collect the matching keys, then delete
each of them.  The stats counters are untouched. -/
def mcInvalidate (mc : MemoryCache) (pattern : String) : MemoryCache :=
  let keysToDelete := (mkeys mc.cache).filter (fun k => gmatchStr pattern k)
  { mc with cache := keysToDelete.foldl (fun acc k => mdel k acc) mc.cache }

/-- `MemoryCache.deleteByPattern`: same removal, returning the number
of deleted keys. -/
def mcDeleteByPattern (mc : MemoryCache) (pattern : String) :
    MemoryCache × Nat :=
  let keysToDelete := (mkeys mc.cache).filter (fun k => gmatchStr pattern k)
  ({ mc with cache := keysToDelete.foldl (fun acc k => mdel k acc) mc.cache },
    keysToDelete.length)

/-- Stable insertion into a timestamp-sorted list (earlier-inserted
entries stay in front of equal timestamps), used to model the stable
`Array.prototype.sort` comparator `a.timestamp - b.timestamp`. -/
def insertByTs (kv : String × MemEntry) :
    List (String × MemEntry) → List (String × MemEntry)
  | [] => [kv]
  | hd :: t =>
    if hd.2.timestamp ≤ kv.2.timestamp then hd :: insertByTs kv t
    else kv :: hd :: t

def sortByTs : List (String × MemEntry) → List (String × MemEntry)
  | [] => []
  | hd :: t => insertByTs hd (sortByTs t)

/-- `MemoryCache.evictOldestBatch(count)`: sort all entries by
timestamp, take the first `count`, delete each and count it as an
eviction. -/
def mcEvictOldestBatch (mc : MemoryCache) (count : Nat) : MemoryCache :=
  let victims := ((sortByTs mc.cache).take count).map Prod.fst
  { mc with
    cache := victims.foldl (fun acc k => mdel k acc) mc.cache,
    evictions := mc.evictions + victims.length }

/-- The expired-entry removal pass of `performCleanup` (no eviction
counting). -/
def mcRemoveExpired (mc : MemoryCache) (now : Int) : MemoryCache :=
  let keysToDelete :=
    (mc.cache.filter (fun kv => now > kv.2.timestamp + kv.2.ttl)).map Prod.fst
  { mc with cache := keysToDelete.foldl (fun acc k => mdel k acc) mc.cache }

/-- `MemoryCache.performCleanup`: remove expired entries, then — if
occupancy still exceeds `maxSize * 0.8` — evict the oldest entries
down to `Math.floor(maxSize * 0.8)`.  The float products are modelled
exactly as the rationals `4 * maxSize / 5`. -/
def mcPerformCleanup (mc : MemoryCache) (now : Int) : MemoryCache :=
  let mc1 := mcRemoveExpired mc now
  if mc1.cache.length * 5 > mc.maxSize * 4 then
    mcEvictOldestBatch mc1 (mc1.cache.length - mc.maxSize * 4 / 5)
  else mc1

/-- `MemoryCache.clear`. -/
def mcClear (mc : MemoryCache) : MemoryCache :=
  { mc with cache := [], hits := 0, misses := 0, evictions := 0 }

/-! ## Data model (src/types.ts)

The entity records of `types.ts`.  Enum-valued fields (`SymbolKind`,
`TypeKind`) are string enums in the source and are modelled as
`String`; optional fields are `Option`; `Date` values are carried as
their ISO strings. -/

structure SourceLocation where
  filePath : String
  line : Nat
  column : Nat
  endLine : Option Nat
  endColumn : Option Nat
  deriving DecidableEq, Repr

structure SymbolInfo where
  name : String
  kind : String
  type : String
  location : SourceLocation
  documentation : Option String
  isExported : Bool
  module : Option String
  signature : Option String
  deriving DecidableEq, Repr

structure PropertyInfo where
  name : String
  type : String
  optional : Bool
  readonly : Bool
  documentation : Option String
  deriving DecidableEq, Repr

structure ParameterInfo where
  name : String
  type : String
  optional : Bool
  defaultValue : Option String
  deriving DecidableEq, Repr

structure MethodInfo where
  name : String
  signature : String
  returnType : String
  parameters : List ParameterInfo
  documentation : Option String
  overloads : Option (List String)
  deriving DecidableEq, Repr

structure TypeParameterInfo where
  name : String
  constraint : Option String
  defaultType : Option String
  deriving DecidableEq, Repr

structure TypeInfo where
  name : String
  kind : String
  properties : List PropertyInfo
  methods : Option (List MethodInfo)
  «extends» : Option (List String)
  «implements» : Option (List String)
  location : SourceLocation
  documentation : Option String
  typeParameters : Option (List TypeParameterInfo)
  deriving DecidableEq, Repr

structure ExportInfo where
  name : String
  type : String
  kind : String
  isDefault : Bool
  documentation : Option String
  deriving DecidableEq, Repr

structure ImportInfo where
  name : String
  localName : String
  source : String
  isDefault : Bool
  isNamespace : Bool
  deriving DecidableEq, Repr

structure ModuleInfo where
  path : String
  exports : List ExportInfo
  imports : List ImportInfo
  dependencies : List String
  deriving DecidableEq, Repr

/-- `ProjectIndex`: the four entity maps are JavaScript `Map`s,
modelled as insertion-ordered association lists (unique keys in every
reachable state); `lastIndexed : Date` is carried as its ISO string. -/
structure ProjectIndex where
  projectPath : String
  symbols : List (String × List SymbolInfo)
  types : List (String × TypeInfo)
  modules : List (String × ModuleInfo)
  dependencies : List (String × List String)
  lastIndexed : String
  deriving DecidableEq, Repr

/-! ## DiskCache (src/core/DiskCache.ts) -/

/-- UTF-8 bytes of a character (the encoding used by
`Buffer.from(projectPath)`). -/
def utf8Bytes (c : Char) : List Nat :=
  let n := c.toNat
  if n < 0x80 then [n]
  else if n < 0x800 then
    [0xC0 ||| (n >>> 6), 0x80 ||| (n &&& 0x3F)]
  else if n < 0x10000 then
    [0xE0 ||| (n >>> 12), 0x80 ||| ((n >>> 6) &&& 0x3F), 0x80 ||| (n &&& 0x3F)]
  else
    [0xF0 ||| (n >>> 18), 0x80 ||| ((n >>> 12) &&& 0x3F),
      0x80 ||| ((n >>> 6) &&& 0x3F), 0x80 ||| (n &&& 0x3F)]

def b64Alphabet : List Char :=
  "ABCDEFGHIJKLMNOPQRSTUVWXYZabcdefghijklmnopqrstuvwxyz0123456789+/".data

def b64Char (n : Nat) : Char :=
  b64Alphabet.getD n 'A'

/-- Standard base64 of a byte list (`Buffer.toString('base64')`). -/
def base64Encode : List Nat → List Char
  | [] => []
  | [a] =>
    [b64Char (a >>> 2), b64Char ((a &&& 0x3) <<< 4), '=', '=']
  | [a, b] =>
    [b64Char (a >>> 2), b64Char (((a &&& 0x3) <<< 4) ||| (b >>> 4)),
      b64Char ((b &&& 0xF) <<< 2), '=']
  | a :: b :: c :: rest =>
    b64Char (a >>> 2) :: b64Char (((a &&& 0x3) <<< 4) ||| (b >>> 4))
      :: b64Char (((b &&& 0xF) <<< 2) ||| (c >>> 6)) :: b64Char (c &&& 0x3F)
      :: base64Encode rest

/-- `DiskCache.hashPath`: base64 of the path, `/`, `+`, `=` replaced
by `_`, truncated to 16 characters. -/
def hashPath (projectPath : String) : String :=
  let enc := base64Encode (projectPath.data.flatMap utf8Bytes)
  let cleaned := enc.map (fun c => if c = '/' || c = '+' || c = '=' then '_' else c)
  String.mk (cleaned.take 16)

/-- `path.join(projectPath, '.typeref')`. -/
def diskCacheDir (projectPath : String) : String :=
  projectPath ++ "/.typeref"

/-- `DiskCache.getCacheFilePath`. -/
def cacheFilePath (projectPath : String) : String :=
  diskCacheDir projectPath ++ "/" ++ hashPath projectPath ++ ".json"

/-- `DiskCache.getMetadataFilePath`. -/
def metadataFilePath (projectPath : String) : String :=
  diskCacheDir projectPath ++ "/" ++ hashPath projectPath ++ ".meta.json"

/-- `ProjectCacheMetadata` (DiskCache.ts): what the `.meta.json` file
deserializes to.  `fileHashes` maps absolute file path to the mtime
ISO string. -/
structure CacheMeta where
  projectPath : String
  lastIndexed : String
  fileCount : Nat
  fileHashes : List (String × String)
  version : String
  deriving DecidableEq, Repr

/-- The serialized form written to the `.json` data file: each `Map`
is converted with `Object.fromEntries`, then JSON round-tripped (the
identity on this content). -/
structure SerializedIndex where
  projectPath : String
  symbols : List (String × List SymbolInfo)
  types : List (String × TypeInfo)
  modules : List (String × ModuleInfo)
  dependencies : List (String × List String)
  lastIndexed : String
  deriving DecidableEq, Repr

/-- `DiskCache.saveProjectIndex`'s `serializable` object. -/
def serializeIndex (idx : ProjectIndex) : SerializedIndex :=
  { projectPath := idx.projectPath
    symbols := jsFromEntries idx.symbols
    types := jsFromEntries idx.types
    modules := jsFromEntries idx.modules
    dependencies := jsFromEntries idx.dependencies
    lastIndexed := idx.lastIndexed }

/-- A file in the DiskCache model: it parses as an index data file, as
a metadata file, or it exists but is unreadable / not of the expected
JSON shape. -/
inductive DiskFile where
  | indexData (s : SerializedIndex)
  | metaData (m : CacheMeta)
  | other
  deriving DecidableEq, Repr

/-- The world state seen by `DiskCache`: the on-disk files, and the
current modification markers of the tracked TypeScript source files
under the project root (`tracked` is the result of the
`getFileHashes` scan: absolute path → `stats.mtime.toISOString()`). -/
structure DiskState where
  files : List (String × DiskFile)
  tracked : List (String × String)
  deriving DecidableEq, Repr

/-- `DiskCache.isCacheValid` (DiskCache.ts:106-151).  Any missing
file, unreadable or unparseable metadata, version mismatch, file-count
change, missing stored hash or differing hash returns `false`; the
surrounding `try`/`catch` is what the `match` arms returning `false`
model, so no error propagates to the caller. -/
def diskIsCacheValid (st : DiskState) (projectPath : String) : Bool :=
  match mlookup (metadataFilePath projectPath) st.files,
      mlookup (cacheFilePath projectPath) st.files with
  | some (.metaData m), some _ =>
    if m.version ≠ "1.0.0" then false
    else if st.tracked.length ≠ m.fileHashes.length then false
    else
      st.tracked.all (fun pc =>
        match mlookup pc.1 m.fileHashes with
        | none => false
        | some cachedHash =>
          -- `!cachedHash || cachedHash !== currentHash`: the empty
          -- string is falsy and also invalidates.
          if cachedHash = "" then false else cachedHash = pc.2)
  | some _, some _ => false
  | _, _ => false

/-- Injectable faults for `DiskCache.saveProjectIndex`: the directory
creation and each of the two file writes may reject. -/
structure SaveFailures where
  mkdirFails : Bool
  writeIndexFails : Bool
  writeMetaFails : Bool
  deriving DecidableEq, Repr

def noFailures : SaveFailures :=
  { mkdirFails := false, writeIndexFails := false, writeMetaFails := false }

/-- The metadata object `saveProjectIndex` writes: the fingerprint is
computed fresh (from the current `tracked` state) at save time. -/
def mkDiskMeta (st : DiskState) (idx : ProjectIndex) : CacheMeta :=
  { projectPath := idx.projectPath
    lastIndexed := idx.lastIndexed
    fileCount := st.tracked.length
    fileHashes := st.tracked
    version := "1.0.0" }

/-- The `try` block of `DiskCache.saveProjectIndex` (DiskCache.ts:
185-224): mkdir, write the data file, compute the fingerprint, write
the metadata file.  Returns the (possibly partially updated) state and
whether an error was thrown. -/
def diskSaveAttempt (fl : SaveFailures) (st : DiskState) (idx : ProjectIndex) :
    DiskState × Bool :=
  if fl.mkdirFails then (st, true)
  else if fl.writeIndexFails then (st, true)
  else
    let st1 := { st with
      files := mset (cacheFilePath idx.projectPath)
        (.indexData (serializeIndex idx)) st.files }
    if fl.writeMetaFails then (st1, true)
    else
      ({ st1 with
          files := mset (metadataFilePath idx.projectPath)
            (.metaData (mkDiskMeta st idx)) st1.files }, false)

/-- `DiskCache.saveProjectIndex`: the whole body is wrapped in
`try`/`catch`; on error it only logs, so the returned promise always
resolves (`Except.ok`). -/
def diskSaveProjectIndex (fl : SaveFailures) (st : DiskState)
    (idx : ProjectIndex) : DiskState × Except String Unit :=
  let r := diskSaveAttempt fl st idx
  (r.1, Except.ok ())

/-- `DiskCache.loadProjectIndex` (DiskCache.ts:156-179): read and
parse the data file, rebuild the `Map`s with
`new Map(Object.entries(..))`; any error (missing file, unreadable,
wrong shape) returns `null`. -/
def diskLoadProjectIndex (st : DiskState) (projectPath : String) :
    Option ProjectIndex :=
  match mlookup (cacheFilePath projectPath) st.files with
  | some (.indexData s) =>
    some
      { projectPath := s.projectPath
        symbols := jsFromEntries s.symbols
        types := jsFromEntries s.types
        modules := jsFromEntries s.modules
        dependencies := jsFromEntries s.dependencies
        lastIndexed := s.lastIndexed }
  | _ => none

/-- Whether a path lies inside the cache directory of `projectPath`
(has `projectPath ++ "/.typeref"` as a path prefix). -/
def underCacheDir (projectPath p : String) : Bool :=
  (diskCacheDir projectPath).data.isPrefixOf p.data

/-- Manual deletion of the cache directory (`rm -rf <root>/.typeref`),
as in the spec scenario between `save` and `isValid`. -/
def removeCacheDir (st : DiskState) (projectPath : String) : DiskState :=
  { st with files := st.files.filter (fun kv => !underCacheDir projectPath kv.1) }

/-! ## ParquetCache (ParquetCache.ts) -/

/-- `path.join(projectPath, CACHE_DIR, TYPESCRIPT_CACHE_DIR)`. -/
def pqBaseDir (projectPath : String) : String :=
  projectPath ++ "/.typeref/cache/typescript"

/-- `path.join(projectPath, CACHE_DIR, METADATA_DIR)`. -/
def pqMetaDir (projectPath : String) : String :=
  projectPath ++ "/.typeref/cache/metadata"

def pqSymbolsPath (projectPath : String) : String :=
  projectPath ++ "/.typeref/cache/typescript/symbols_v1.0.0.parquet"

def pqTypesPath (projectPath : String) : String :=
  projectPath ++ "/.typeref/cache/typescript/types_v1.0.0.parquet"

def pqModulesPath (projectPath : String) : String :=
  projectPath ++ "/.typeref/cache/typescript/modules_v1.0.0.parquet"

def pqDepsPath (projectPath : String) : String :=
  projectPath ++ "/.typeref/cache/typescript/dependencies_v1.0.0.parquet"

def pqFileHashesPath (projectPath : String) : String :=
  projectPath ++ "/.typeref/cache/metadata/file_hashes_v1.0.0.json"

def pqProjectInfoPath (projectPath : String) : String :=
  projectPath ++ "/.typeref/cache/metadata/project_info_v1.0.0.json"

def pqGitignorePath (projectPath : String) : String :=
  projectPath ++ "/.typeref/.gitignore"

def pqProjectYmlPath (projectPath : String) : String :=
  projectPath ++ "/.typeref/project.yml"

/-- `x || null` on an optional string field: both `undefined` and the
falsy empty string are stored as `null`. -/
def orNull : Option String → Option String
  | some s => if s = "" then none else some s
  | none => none

/-- One row of the symbols Parquet file.  `location` is stored as
`JSON.stringify(location)` and parsed back on load; the string layer
is the identity on the content and is embedded as the value itself. -/
structure SymbolRow where
  symbolName : String
  name : String
  kind : String
  type : String
  location : SourceLocation
  documentation : Option String
  isExported : Bool
  module : Option String
  signature : Option String
  deriving DecidableEq, Repr

structure TypeRow where
  typeName : String
  name : String
  kind : String
  properties : List PropertyInfo
  methods : Option (List MethodInfo)
  «extends» : Option (List String)
  «implements» : Option (List String)
  location : SourceLocation
  documentation : Option String
  typeParameters : Option (List TypeParameterInfo)
  deriving DecidableEq, Repr

structure ModuleRow where
  modulePath : String
  path : String
  exports : List ExportInfo
  imports : List ImportInfo
  dependencies : List String
  deriving DecidableEq, Repr

structure DepRow where
  fromModule : String
  toModules : List String
  deriving DecidableEq, Repr

/-- `ParquetCache.symbolsToParquetData`: one row per `SymbolInfo`, in
map iteration order. -/
def symbolsToParquetData (symbols : List (String × List SymbolInfo)) :
    List SymbolRow :=
  symbols.flatMap (fun kv =>
    kv.2.map (fun si =>
      { symbolName := kv.1
        name := si.name
        kind := si.kind
        type := si.type
        location := si.location
        documentation := orNull si.documentation
        isExported := si.isExported
        module := orNull si.module
        signature := orNull si.signature }))

/-- `ParquetCache.typesToParquetData`.  The `x ? JSON.stringify(x) :
null` guards on the optional list fields map `undefined` to `null`
(an empty array is truthy and is kept). -/
def typesToParquetData (types : List (String × TypeInfo)) : List TypeRow :=
  types.map (fun kv =>
    { typeName := kv.1
      name := kv.2.name
      kind := kv.2.kind
      properties := kv.2.properties
      methods := kv.2.methods
      «extends» := kv.2.«extends»
      «implements» := kv.2.«implements»
      location := kv.2.location
      documentation := orNull kv.2.documentation
      typeParameters := kv.2.typeParameters })

def modulesToParquetData (modules : List (String × ModuleInfo)) :
    List ModuleRow :=
  modules.map (fun kv =>
    { modulePath := kv.1
      path := kv.2.path
      exports := kv.2.exports
      imports := kv.2.imports
      dependencies := kv.2.dependencies })

def dependenciesToParquetData (dependencies : List (String × List String)) :
    List DepRow :=
  dependencies.map (fun kv => { fromModule := kv.1, toModules := kv.2 })

/-- `ProjectCacheMetadata` of ParquetCache.ts (the `file_hashes` JSON
file). -/
structure PqMeta where
  projectPath : String
  lastIndexed : String
  fileCount : Nat
  fileHashes : List (String × String)
  version : String
  cacheFormat : String
  deriving DecidableEq, Repr

/-- `ProjectConfig` (the `project_info` JSON file). -/
structure PqConfig where
  projectName : String
  language : String
  version : String
  lastIndexed : String
  fileCount : Nat
  symbolCount : Nat
  typeCount : Nat
  deriving DecidableEq, Repr

/-- A file in the ParquetCache model (`.otherP` exists but is
unreadable or does not parse as the expected shape). -/
inductive PqFile where
  | symbolsF (rows : List SymbolRow)
  | typesF (rows : List TypeRow)
  | modulesF (rows : List ModuleRow)
  | depsF (rows : List DepRow)
  | hashesF (m : PqMeta)
  | infoF (c : PqConfig)
  | textF (s : String)
  | otherP
  deriving DecidableEq, Repr

/-- World state seen by `ParquetCache` (same conventions as
`DiskState`). -/
structure PqState where
  files : List (String × PqFile)
  tracked : List (String × String)
  deriving DecidableEq, Repr

/-- `ParquetCache.writeParquetFile` (ParquetCache.ts:345-376): data of
length zero is NOT written — the function returns without creating the
file. -/
def writeParquetFile {ρ : Type} (files : List (String × PqFile))
    (path : String) (rows : List ρ) (mk : List ρ → PqFile) :
    List (String × PqFile) :=
  if rows.length = 0 then files else mset path (mk rows) files

/-- `path.basename(projectPath)`: the last slash-separated component. -/
def pathBasename (p : String) : String :=
  match (p.splitOn "/").getLast? with
  | some s => s
  | none => p

/-- The `.gitignore` written on first initialization. -/
def gitignoreContent : String :=
  "# TypeRef cache files\n/cache/\n/logs/\n*.log\n*.tmp\n"

/-- The `project.yml` written on first initialization (`created` is
`new Date().toISOString()` at call time). -/
def projectYmlContent (projectName nowIso : String) : String :=
  "# TypeRef MCP Project Configuration\nproject_name: \"" ++ projectName ++
    "\"\nlanguage: typescript\nversion: \"1.0.0\"\ncreated: \"" ++ nowIso ++
    "\"\ncache version 1.0.0 parquet snappy; ignored_paths elided\n"

/-- `ParquetCache.initializeProjectStructure`: create the directory
tree (directories are not part of the file-map model) and write
`.gitignore` / `project.yml` only if absent. -/
def pqSetupStructure (files : List (String × PqFile))
    (projectPath nowIso : String) : List (String × PqFile) :=
  let f1 :=
    if (mlookup (pqGitignorePath projectPath) files).isSome then files
    else mset (pqGitignorePath projectPath) (.textF gitignoreContent) files
  if (mlookup (pqProjectYmlPath projectPath) f1).isSome then f1
  else mset (pqProjectYmlPath projectPath)
    (.textF (projectYmlContent (pathBasename projectPath) nowIso)) f1

/-- `ParquetCache.saveProjectIndex` (ParquetCache.ts:273-340): init
structure, convert the four maps to row arrays, write the four Parquet
files (empty arrays are skipped by `writeParquetFile`), then write the
fingerprint metadata and project info JSON files. -/
def pqSaveProjectIndex (st : PqState) (idx : ProjectIndex) (nowIso : String) :
    PqState :=
  let root := idx.projectPath
  let f0 := pqSetupStructure st.files root nowIso
  let symbolsData := symbolsToParquetData idx.symbols
  let typesData := typesToParquetData idx.types
  let modulesData := modulesToParquetData idx.modules
  let dependenciesData := dependenciesToParquetData idx.dependencies
  let f1 := writeParquetFile f0 (pqSymbolsPath root) symbolsData .symbolsF
  let f2 := writeParquetFile f1 (pqTypesPath root) typesData .typesF
  let f3 := writeParquetFile f2 (pqModulesPath root) modulesData .modulesF
  let f4 := writeParquetFile f3 (pqDepsPath root) dependenciesData .depsF
  let meta : PqMeta :=
    { projectPath := root
      lastIndexed := idx.lastIndexed
      fileCount := st.tracked.length
      fileHashes := st.tracked
      version := "1.0.0"
      cacheFormat := "parquet" }
  let info : PqConfig :=
    { projectName := pathBasename root
      language := "typescript"
      version := "1.0.0"
      lastIndexed := idx.lastIndexed
      fileCount := st.tracked.length
      symbolCount := symbolsData.length
      typeCount := typesData.length }
  let f5 := mset (pqFileHashesPath root) (.hashesF meta) f4
  let f6 := mset (pqProjectInfoPath root) (.infoF info) f5
  { st with files := f6 }

/-- `ParquetCache.isCacheValid` (ParquetCache.ts:381-431): requires
all six cache files to exist, then validates version and the per-file
fingerprints exactly as `DiskCache.isCacheValid` does. -/
def pqIsCacheValid (st : PqState) (projectPath : String) : Bool :=
  if (mlookup (pqSymbolsPath projectPath) st.files).isNone then false
  else if (mlookup (pqTypesPath projectPath) st.files).isNone then false
  else if (mlookup (pqModulesPath projectPath) st.files).isNone then false
  else if (mlookup (pqDepsPath projectPath) st.files).isNone then false
  else if (mlookup (pqProjectInfoPath projectPath) st.files).isNone then false
  else
    match mlookup (pqFileHashesPath projectPath) st.files with
    | some (.hashesF m) =>
      if m.version ≠ "1.0.0" then false
      else if st.tracked.length ≠ m.fileHashes.length then false
      else
        st.tracked.all (fun pc =>
          match mlookup pc.1 m.fileHashes with
          | none => false
          | some cachedHash =>
            if cachedHash = "" then false else cachedHash = pc.2)
    | some _ => false
    | none => false

/-- Rebuild of the symbols map from rows (ParquetCache.ts:458-475). -/
def addSymbolRow (m : List (String × List SymbolInfo)) (r : SymbolRow) :
    List (String × List SymbolInfo) :=
  let si : SymbolInfo :=
    { name := r.name, kind := r.kind, type := r.type, location := r.location
      documentation := r.documentation, isExported := r.isExported
      module := r.module, signature := r.signature }
  match mlookup r.symbolName m with
  | some l => mset r.symbolName (l ++ [si]) m
  | none => mset r.symbolName [si] m

def typeRowToInfo (r : TypeRow) : TypeInfo :=
  { name := r.name, kind := r.kind, properties := r.properties
    methods := r.methods, «extends» := r.«extends»
    «implements» := r.«implements», location := r.location
    documentation := r.documentation, typeParameters := r.typeParameters }

def moduleRowToInfo (r : ModuleRow) : ModuleInfo :=
  { path := r.path, exports := r.exports, imports := r.imports
    dependencies := r.dependencies }

/-- `ParquetCache.loadProjectIndex` (ParquetCache.ts:436-528): read
the four Parquet files and the project info in parallel — a missing or
wrong-shaped file makes `readParquetFile`/`JSON.parse` throw and the
whole load returns `null` — then rebuild the four maps. -/
def pqLoadProjectIndex (st : PqState) (projectPath : String) :
    Option ProjectIndex :=
  match mlookup (pqSymbolsPath projectPath) st.files,
      mlookup (pqTypesPath projectPath) st.files,
      mlookup (pqModulesPath projectPath) st.files,
      mlookup (pqDepsPath projectPath) st.files,
      mlookup (pqProjectInfoPath projectPath) st.files with
  | some (.symbolsF srows), some (.typesF trows), some (.modulesF mrows),
      some (.depsF drows), some (.infoF info) =>
    some
      { projectPath := projectPath
        symbols := srows.foldl addSymbolRow []
        types := trows.foldl (fun m r => mset r.typeName (typeRowToInfo r) m) []
        modules :=
          mrows.foldl (fun m r => mset r.modulePath (moduleRowToInfo r) m) []
        dependencies := drows.foldl (fun m r => mset r.fromModule r.toModules m) []
        lastIndexed := info.lastIndexed }
  | _, _, _, _, _ => none

/-! ## `TypeScriptAdapter.indexProject` under concurrency
(TypeScriptAdapter.ts:53-86)

JavaScript concurrency is cooperative: each `async` call runs
atomically between `await` points.  `indexProject` for one root
consists of three such segments:

* `checkCache` — validate, build the cache key and call
  `this.cache.get(cacheKey)` (lines 54-63); if a cached index is
  found (and `force` is false) the call returns it immediately,
  otherwise it proceeds into `await this.createProject(...)`;
* `build` — the segment containing
  `await this.buildProjectIndex(project, projectPath)` (line 73),
  i.e. one invocation of the external analyzer;
* `store` — `this.cache.set(cacheKey, index, ...)` and return
  (lines 76-80).

There is no in-flight-promise table in the source, so nothing links
two overlapping calls.  A schedule is a list of task indices; each
entry runs the named task's next segment. -/

inductive IdxPC where
  | checkCache
  | build
  | store
  | finished
  deriving DecidableEq, Repr

/-- Shared state: the hot-cache entry for this root's index key
(`none` = absent), the number of analyzer invocations so far, and each
task's program counter. -/
structure IdxRun where
  cached : Option Nat
  builds : Nat
  pcs : List IdxPC
  deriving DecidableEq, Repr

/-- One segment of one `indexProject` call. -/
def idxStep (pc : IdxPC) (cached : Option Nat) (builds : Nat) :
    IdxPC × Option Nat × Nat :=
  match pc with
  | .checkCache =>
    match cached with
    | some _ => (.finished, cached, builds)
    | none => (.build, cached, builds)
  | .build => (.store, cached, builds + 1)
  | .store => (.finished, some 0, builds)
  | .finished => (.finished, cached, builds)

/-- Run a schedule of task indices. -/
def idxRunSched (s : IdxRun) : List Nat → IdxRun
  | [] => s
  | i :: rest =>
    let pc := s.pcs.getD i .finished
    let r := idxStep pc s.cached s.builds
    idxRunSched { cached := r.2.1, builds := r.2.2, pcs := s.pcs.set i r.1 } rest

/-- `n` simultaneous `indexProject` calls for an `Unindexed` root: no
hot-cache entry, no builds yet, every call about to run its cache
check. -/
def idxStart (n : Nat) : IdxRun :=
  { cached := none, builds := 0, pcs := List.replicate n .checkCache }

theorem idxRunSched_append (s : IdxRun) (l₁ l₂ : List Nat) :
    idxRunSched s (l₁ ++ l₂) = idxRunSched (idxRunSched s l₁) l₂ := by
  induction l₁ generalizing s with
  | nil => rfl
  | cons i t ih => simp [idxRunSched, ih]

/-- Once the hot cache holds the index and no task is mid-build, no
schedule ever triggers another analyzer invocation. -/
theorem idxRunSched_no_build (sched : List Nat) (s : IdxRun)
    (hc : s.cached.isSome)
    (hpcs : ∀ pc ∈ s.pcs, pc = IdxPC.checkCache ∨ pc = IdxPC.finished) :
    (idxRunSched s sched).builds = s.builds := by
  induction sched generalizing s with
  | nil => rfl
  | cons i rest ih =>
    obtain ⟨v, hv⟩ := Option.isSome_iff_exists.mp hc
    by_cases hi : i < s.pcs.length
    · have hmem : s.pcs.getD i .finished ∈ s.pcs := by
        rw [List.getD_eq_getElem s.pcs .finished hi]
        exact List.getElem_mem hi
      rcases hpcs _ hmem with hpc | hpc
      · rw [idxRunSched]
        rw [hpc, hv]
        refine ih _ (by simp [idxStep, hv]) ?_
        intro pc hpcmem
        rcases List.mem_or_eq_of_mem_set hpcmem with hmem2 | hpcval
        · exact hpcs _ hmem2
        · right
          simpa [idxStep] using hpcval
      · rw [idxRunSched]
        rw [hpc, hv]
        refine ih _ (by simp [idxStep, hv]) ?_
        intro pc hpcmem
        rcases List.mem_or_eq_of_mem_set hpcmem with hmem2 | hpcval
        · exact hpcs _ hmem2
        · right
          simpa [idxStep] using hpcval
    · have hget : s.pcs.getD i .finished = .finished := by
        rw [List.getD_eq_getElem?_getD]
        rw [List.getElem?_eq_none (by omega)]
        rfl
      rw [idxRunSched, hget, hv]
      refine ih _ (by simp [idxStep, hv]) ?_
      intro pc hpcmem
      rcases List.mem_or_eq_of_mem_set hpcmem with hmem2 | hpcval
      · exact hpcs _ hmem2
      · right
        simpa [idxStep] using hpcval

/-! ## Path facts -/

theorem strAppend_right_ne {a b : String} (r : String) (h : a ≠ b) :
    r ++ a ≠ r ++ b := by
  intro hc
  apply h
  apply String.ext
  have := congrArg String.data hc
  rw [String.data_append, String.data_append] at this
  exact List.append_cancel_left this

theorem cacheFilePath_ne_metadataFilePath (projectPath : String) :
    cacheFilePath projectPath ≠ metadataFilePath projectPath := by
  unfold cacheFilePath metadataFilePath
  exact strAppend_right_ne _ (by decide)

theorem underCacheDir_metadataFilePath (projectPath : String) :
    underCacheDir projectPath (metadataFilePath projectPath) = true := by
  unfold underCacheDir metadataFilePath
  rw [String.append_assoc, String.append_assoc]
  rw [String.data_append]
  rw [List.isPrefixOf_iff_prefix]
  exact List.prefix_append _ _

theorem underCacheDir_pqSymbolsPath (projectPath : String) :
    underCacheDir projectPath (pqSymbolsPath projectPath) = true := by
  unfold underCacheDir diskCacheDir pqSymbolsPath
  rw [String.data_append, String.data_append, List.isPrefixOf_iff_prefix,
    List.prefix_append_right_inj]
  decide

/-- Manual deletion of `<root>/.typeref` in the ParquetCache world. -/
def removePqCacheDir (st : PqState) (projectPath : String) : PqState :=
  { st with files := st.files.filter (fun kv => !underCacheDir projectPath kv.1) }

/-- If the dependencies Parquet file is absent, `pqIsCacheValid` is
`false` (its `Promise.all` of `fs.access` calls rejects). -/
theorem pqIsCacheValid_false_of_deps_missing (st : PqState) (root : String)
    (h : mlookup (pqDepsPath root) st.files = none) :
    pqIsCacheValid st root = false := by
  unfold pqIsCacheValid
  split_ifs with h1 h2 h3 h4 h5
  · rfl
  · rfl
  · rfl
  · rfl
  · rfl
  · simp [h] at h4

theorem pqIsCacheValid_false_of_symbols_missing (st : PqState) (root : String)
    (h : mlookup (pqSymbolsPath root) st.files = none) :
    pqIsCacheValid st root = false := by
  unfold pqIsCacheValid
  split_ifs with h1 h2 h3 h4 h5
  · rfl
  · rfl
  · rfl
  · rfl
  · rfl
  · simp [h] at h1

theorem pqIsCacheValid_false_of_types_missing (st : PqState) (root : String)
    (h : mlookup (pqTypesPath root) st.files = none) :
    pqIsCacheValid st root = false := by
  unfold pqIsCacheValid
  split_ifs with h1 h2 h3 h4 h5
  · rfl
  · rfl
  · rfl
  · rfl
  · rfl
  · simp [h] at h2

theorem pqIsCacheValid_false_of_modules_missing (st : PqState) (root : String)
    (h : mlookup (pqModulesPath root) st.files = none) :
    pqIsCacheValid st root = false := by
  unfold pqIsCacheValid
  split_ifs with h1 h2 h3 h4 h5
  · rfl
  · rfl
  · rfl
  · rfl
  · rfl
  · simp [h] at h3

theorem pqIsCacheValid_false_of_info_missing (st : PqState) (root : String)
    (h : mlookup (pqProjectInfoPath root) st.files = none) :
    pqIsCacheValid st root = false := by
  unfold pqIsCacheValid
  split_ifs with h1 h2 h3 h4 h5
  · rfl
  · rfl
  · rfl
  · rfl
  · rfl
  · simp [h] at h5

theorem pqIsCacheValid_false_of_hashes_missing (st : PqState) (root : String)
    (h : mlookup (pqFileHashesPath root) st.files = none) :
    pqIsCacheValid st root = false := by
  unfold pqIsCacheValid
  split_ifs with h1 h2 h3 h4 h5
  · rfl
  · rfl
  · rfl
  · rfl
  · rfl
  · rw [h]

/-- A lookup in a filtered map where every entry with this key is
dropped by the filter. -/
theorem mlookup_filter_none {α : Type} (q : String × α → Bool) (k : String)
    (l : List (String × α)) (h : ∀ v, q (k, v) = false) :
    mlookup k (l.filter q) = none := by
  induction l with
  | nil => simp
  | cons hd t ih =>
    obtain ⟨k', v'⟩ := hd
    by_cases hk : k' = k
    · subst hk
      simp [List.filter_cons, h v', ih]
    · cases hq : q (k', v') with
      | true => simpa [List.filter_cons, hq, mlookup, hk] using ih
      | false => simpa [List.filter_cons, hq] using ih

/-! ## Claim theorems -/

/-- A world in which the index data file exists but is unreadable /
unparseable while the metadata file is valid (current version) and its
fingerprints match the tracked files exactly. -/
def corruptDataState : DiskState :=
  { files :=
      [(cacheFilePath "/p", .other),
        (metadataFilePath "/p", .metaData
          { projectPath := "/p"
            lastIndexed := "2024-01-01T00:00:00.000Z"
            fileCount := 1
            fileHashes := [("/p/src/a.ts", "2024-01-01T00:00:00.000Z")]
            version := "1.0.0" })]
    tracked := [("/p/src/a.ts", "2024-01-01T00:00:00.000Z")] }

/-- C4 counterexample: the claim says `isValid` "returns false
whenever any required cache file is missing, unreadable, or fails to
parse", but `DiskCache.isCacheValid` only `fs.access`es the data file
(DiskCache.ts:113) and never reads or parses it: a
present-but-unparseable data file next to valid, fingerprint-matching
metadata validates `true`. -/
theorem c4_counterexample_corrupt_data_file :
    mlookup (cacheFilePath "/p") corruptDataState.files =
      some DiskFile.other ∧
    diskIsCacheValid corruptDataState "/p" = true := by
  decide

/-- C4 (amended): both `isCacheValid` implementations are total `Bool`
functions (every failure arm of the source's `try`/`catch` is a
`false` result, so no error reaches the caller) and fail closed on
everything they examine: `DiskCache.isCacheValid` returns `false` when
the metadata file or the data file is missing, when the metadata file
does not parse, and on a stored-version mismatch, and returns `false`
after the cache directory is deleted; `ParquetCache.isCacheValid`
returns `false` when any of its six required files is missing, when
the fingerprint metadata file does not parse, on a version mismatch,
and after the cache directory is deleted.  The data files' contents
are never examined (only `fs.access`), so — per the counterexample —
a present-but-corrupt data file does not invalidate. -/
theorem c4_isValid_fails_closed (st : DiskState) (pst : PqState)
    (projectPath : String) :
    (mlookup (metadataFilePath projectPath) st.files = none →
      diskIsCacheValid st projectPath = false) ∧
    (mlookup (cacheFilePath projectPath) st.files = none →
      diskIsCacheValid st projectPath = false) ∧
    (mlookup (metadataFilePath projectPath) st.files = some .other →
      diskIsCacheValid st projectPath = false) ∧
    (∀ m, mlookup (metadataFilePath projectPath) st.files = some (.metaData m) →
      m.version ≠ "1.0.0" → diskIsCacheValid st projectPath = false) ∧
    diskIsCacheValid (removeCacheDir st projectPath) projectPath = false ∧
    (mlookup (pqSymbolsPath projectPath) pst.files = none →
      pqIsCacheValid pst projectPath = false) ∧
    (mlookup (pqTypesPath projectPath) pst.files = none →
      pqIsCacheValid pst projectPath = false) ∧
    (mlookup (pqModulesPath projectPath) pst.files = none →
      pqIsCacheValid pst projectPath = false) ∧
    (mlookup (pqDepsPath projectPath) pst.files = none →
      pqIsCacheValid pst projectPath = false) ∧
    (mlookup (pqProjectInfoPath projectPath) pst.files = none →
      pqIsCacheValid pst projectPath = false) ∧
    (mlookup (pqFileHashesPath projectPath) pst.files = none →
      pqIsCacheValid pst projectPath = false) ∧
    (mlookup (pqFileHashesPath projectPath) pst.files = some .otherP →
      pqIsCacheValid pst projectPath = false) ∧
    (∀ m, mlookup (pqFileHashesPath projectPath) pst.files =
        some (.hashesF m) →
      m.version ≠ "1.0.0" → pqIsCacheValid pst projectPath = false) ∧
    pqIsCacheValid (removePqCacheDir pst projectPath) projectPath = false := by
  refine ⟨?_, ?_, ?_, ?_, ?_, ?_, ?_, ?_, ?_, ?_, ?_, ?_, ?_, ?_⟩
  · intro h
    simp [diskIsCacheValid, h]
  · intro h
    unfold diskIsCacheValid
    rw [h]
    cases mlookup (metadataFilePath projectPath) st.files with
    | none => rfl
    | some f => cases f <;> rfl
  · intro h
    unfold diskIsCacheValid
    rw [h]
    cases mlookup (cacheFilePath projectPath) st.files with
    | none => rfl
    | some f => rfl
  · intro m h hv
    unfold diskIsCacheValid
    rw [h]
    cases mlookup (cacheFilePath projectPath) st.files with
    | none => rfl
    | some f => simp [hv]
  · have hnone : mlookup (metadataFilePath projectPath)
        (removeCacheDir st projectPath).files = none := by
      unfold removeCacheDir
      apply mlookup_filter_none
      intro v
      simp [underCacheDir_metadataFilePath projectPath]
    simp [diskIsCacheValid, hnone]
  · exact pqIsCacheValid_false_of_symbols_missing pst projectPath
  · exact pqIsCacheValid_false_of_types_missing pst projectPath
  · exact pqIsCacheValid_false_of_modules_missing pst projectPath
  · exact pqIsCacheValid_false_of_deps_missing pst projectPath
  · exact pqIsCacheValid_false_of_info_missing pst projectPath
  · exact pqIsCacheValid_false_of_hashes_missing pst projectPath
  · intro h
    unfold pqIsCacheValid
    split_ifs with h1 h2 h3 h4 h5
    · rfl
    · rfl
    · rfl
    · rfl
    · rfl
    · rw [h]
  · intro m h hv
    unfold pqIsCacheValid
    split_ifs with h1 h2 h3 h4 h5
    · rfl
    · rfl
    · rfl
    · rfl
    · rfl
    · rw [h]
      simp [hv]
  · have hnone : mlookup (pqSymbolsPath projectPath)
        (removePqCacheDir pst projectPath).files = none := by
      unfold removePqCacheDir
      apply mlookup_filter_none
      intro v
      simp [underCacheDir_pqSymbolsPath projectPath]
    exact pqIsCacheValid_false_of_symbols_missing _ _ hnone

/-- C4 witness: an empty filesystem — both stores judge it invalid. -/
theorem c4_witness :
    diskIsCacheValid { files := [], tracked := [] } "/proj" = false ∧
    pqIsCacheValid { files := [], tracked := [] } "/proj" = false :=
  ⟨(c4_isValid_fails_closed { files := [], tracked := [] }
      { files := [], tracked := [] } "/proj").1 rfl,
    (c4_isValid_fails_closed { files := [], tracked := [] }
      { files := [], tracked := [] } "/proj").2.2.2.2.2.1 rfl⟩

/-- C9: `DiskCache.saveProjectIndex` never rejects — whatever faults
the directory creation or either file write injects, the returned
promise resolves normally; and when nothing fails, both the data file
and the freshly-fingerprinted metadata file are on disk. -/
theorem c9_diskSave_never_rejects (fl : SaveFailures) (st : DiskState)
    (idx : ProjectIndex) :
    (diskSaveProjectIndex fl st idx).2 = Except.ok () ∧
    (fl = noFailures →
      mlookup (cacheFilePath idx.projectPath)
          (diskSaveProjectIndex fl st idx).1.files =
        some (.indexData (serializeIndex idx)) ∧
      mlookup (metadataFilePath idx.projectPath)
          (diskSaveProjectIndex fl st idx).1.files =
        some (.metaData (mkDiskMeta st idx))) := by
  constructor
  · rfl
  · intro hfl
    subst hfl
    constructor
    · show mlookup (cacheFilePath idx.projectPath)
        (mset (metadataFilePath idx.projectPath) _
          (mset (cacheFilePath idx.projectPath) _ st.files)) = _
      rw [mlookup_mset_ne
        (Ne.symm (cacheFilePath_ne_metadataFilePath idx.projectPath))]
      exact mlookup_mset_self _ _ _
    · exact mlookup_mset_self _ _ _

/-- C9 witness: a concrete save with an injected metadata-write
failure still resolves; a fault-free save writes both files. -/
theorem c9_witness :
    (diskSaveProjectIndex
        { mkdirFails := false, writeIndexFails := false, writeMetaFails := true }
        { files := [], tracked := [] }
        { projectPath := "/p", symbols := [], types := [], modules := []
          dependencies := [], lastIndexed := "2024-01-01T00:00:00.000Z" }).2 =
      Except.ok () ∧
    mlookup (metadataFilePath "/p")
        (diskSaveProjectIndex noFailures { files := [], tracked := [] }
          { projectPath := "/p", symbols := [], types := [], modules := []
            dependencies := [], lastIndexed := "2024-01-01T00:00:00.000Z" }).1.files =
      some (.metaData (mkDiskMeta { files := [], tracked := [] }
        { projectPath := "/p", symbols := [], types := [], modules := []
          dependencies := [], lastIndexed := "2024-01-01T00:00:00.000Z" })) :=
  ⟨(c9_diskSave_never_rejects _ _ _).1,
    ((c9_diskSave_never_rejects noFailures { files := [], tracked := [] }
      { projectPath := "/p", symbols := [], types := [], modules := []
        dependencies := [], lastIndexed := "2024-01-01T00:00:00.000Z" }).2 rfl).2⟩

/-- A sample location for concrete inputs. -/
def sampleLoc : SourceLocation :=
  { filePath := "/p/src/a.ts", line := 1, column := 1
    endLine := none, endColumn := none }

/-- A sample symbol for concrete inputs. -/
def sampleSymbol : SymbolInfo :=
  { name := "f", kind := "function", type := "() => void"
    location := sampleLoc, documentation := none, isExported := true
    module := some "/p/src/a.ts", signature := none }

/-- A sample type descriptor for concrete inputs. -/
def sampleType : TypeInfo :=
  { name := "T", kind := "interface", properties := [], methods := none
    «extends» := none, «implements» := none, location := sampleLoc
    documentation := none, typeParameters := none }

/-- A sample module descriptor for concrete inputs. -/
def sampleModule : ModuleInfo :=
  { path := "/p/src/a.ts", exports := [], imports := [], dependencies := [] }

/-- A realistic index whose `dependencies` map is empty (e.g. no file
imports anything): the analyzer contract explicitly allows empty maps. -/
def idxNoDeps : ProjectIndex :=
  { projectPath := "/p"
    symbols := [("f", [sampleSymbol])]
    types := [("T", sampleType)]
    modules := [("/p/src/a.ts", sampleModule)]
    dependencies := []
    lastIndexed := "2024-01-01T00:00:00.000Z" }

/-- A world with one tracked source file and no cache files yet. -/
def pqFresh : PqState :=
  { files := [], tracked := [("/p/src/a.ts", "2024-01-01T00:00:00.000Z")] }

/-- C3 counterexample: with the columnar cold store, saving
`idxNoDeps` (whose `dependencies` map is empty) skips the dependencies
Parquet file entirely, and the subsequent load throws on the missing
file and returns `null` — no index is reconstructed at all, so the
round-trip property fails as stated. -/
theorem c3_counterexample_pq_empty_map :
    pqLoadProjectIndex (pqSaveProjectIndex pqFresh idxNoDeps
      "2024-01-01T00:00:00.000Z") "/p" = none := by
  rfl

/-- C3 (amended): for the whole-object JSON cold store (`DiskCache`),
`loadProjectIndex` after a fault-free `saveProjectIndex` reconstructs
the `ProjectIndex` exactly — in particular the four entity maps are
equal by content to the originals (the key-uniqueness hypotheses hold
for every JavaScript `Map`). -/
theorem c3_diskCache_roundTrip (st : DiskState) (idx : ProjectIndex)
    (hs : (mkeys idx.symbols).Nodup) (ht : (mkeys idx.types).Nodup)
    (hm : (mkeys idx.modules).Nodup) (hd : (mkeys idx.dependencies).Nodup) :
    diskLoadProjectIndex (diskSaveProjectIndex noFailures st idx).1
      idx.projectPath = some idx := by
  have hdata : mlookup (cacheFilePath idx.projectPath)
      (diskSaveProjectIndex noFailures st idx).1.files =
      some (.indexData (serializeIndex idx)) := by
    show mlookup (cacheFilePath idx.projectPath)
      (mset (metadataFilePath idx.projectPath) _
        (mset (cacheFilePath idx.projectPath) _ st.files)) = _
    rw [mlookup_mset_ne
      (Ne.symm (cacheFilePath_ne_metadataFilePath idx.projectPath))]
    exact mlookup_mset_self _ _ _
  unfold diskLoadProjectIndex
  rw [hdata]
  have hround : ∀ {α : Type} (l : List (String × α)), (mkeys l).Nodup →
      jsFromEntries (jsFromEntries l) = l := by
    intro α l hl
    rw [jsFromEntries_eq_self l hl, jsFromEntries_eq_self l hl]
  simp only [serializeIndex]
  rw [hround idx.symbols hs, hround idx.types ht, hround idx.modules hm,
    hround idx.dependencies hd]

/-- C3 witness: round trip of a concrete one-entry-per-map index. -/
theorem c3_witness :
    diskLoadProjectIndex
      (diskSaveProjectIndex noFailures { files := [], tracked := [] }
        { projectPath := "/p", symbols := [("f", [sampleSymbol])]
          types := [("T", sampleType)]
          modules := [("/p/src/a.ts", sampleModule)]
          dependencies := [("/p/src/a.ts", [])]
          lastIndexed := "2024-01-01T00:00:00.000Z" }).1 "/p" =
    some
      { projectPath := "/p", symbols := [("f", [sampleSymbol])]
        types := [("T", sampleType)]
        modules := [("/p/src/a.ts", sampleModule)]
        dependencies := [("/p/src/a.ts", [])]
        lastIndexed := "2024-01-01T00:00:00.000Z" } :=
  c3_diskCache_roundTrip { files := [], tracked := [] } _
    (by decide) (by decide) (by decide) (by decide)

theorem mlookup_writeParquetFile_ne {ρ : Type} (files : List (String × PqFile))
    {p q : String} (h : q ≠ p) (rows : List ρ) (mk : List ρ → PqFile) :
    mlookup p (writeParquetFile files q rows mk) = mlookup p files := by
  unfold writeParquetFile
  split
  · rfl
  · exact mlookup_mset_ne h _ _

theorem mlookup_pqSetupStructure_ne (files : List (String × PqFile))
    (root nowIso p : String) (h1 : pqGitignorePath root ≠ p)
    (h2 : pqProjectYmlPath root ≠ p) :
    mlookup p (pqSetupStructure files root nowIso) = mlookup p files := by
  unfold pqSetupStructure
  by_cases hg : (mlookup (pqGitignorePath root) files).isSome
  · by_cases hy :
      (mlookup (pqProjectYmlPath root) files).isSome
    · simp [hg, hy]
    · simp [hg, hy, mlookup_mset_ne h2]
  · by_cases hy : (mlookup (pqProjectYmlPath root)
        (mset (pqGitignorePath root) (.textF gitignoreContent) files)).isSome
    · simp [hg, hy, mlookup_mset_ne h1]
    · simp [hg, hy, mlookup_mset_ne h1, mlookup_mset_ne h2]

theorem pqProjectInfoPath_ne_depsPath (root : String) :
    pqProjectInfoPath root ≠ pqDepsPath root := by
  unfold pqProjectInfoPath pqDepsPath
  exact strAppend_right_ne _ (by decide)

theorem pqFileHashesPath_ne_depsPath (root : String) :
    pqFileHashesPath root ≠ pqDepsPath root := by
  unfold pqFileHashesPath pqDepsPath
  exact strAppend_right_ne _ (by decide)

theorem pqSymbolsPath_ne_depsPath (root : String) :
    pqSymbolsPath root ≠ pqDepsPath root := by
  unfold pqSymbolsPath pqDepsPath
  exact strAppend_right_ne _ (by decide)

theorem pqTypesPath_ne_depsPath (root : String) :
    pqTypesPath root ≠ pqDepsPath root := by
  unfold pqTypesPath pqDepsPath
  exact strAppend_right_ne _ (by decide)

theorem pqModulesPath_ne_depsPath (root : String) :
    pqModulesPath root ≠ pqDepsPath root := by
  unfold pqModulesPath pqDepsPath
  exact strAppend_right_ne _ (by decide)

theorem pqGitignorePath_ne_depsPath (root : String) :
    pqGitignorePath root ≠ pqDepsPath root := by
  unfold pqGitignorePath pqDepsPath
  exact strAppend_right_ne _ (by decide)

theorem pqProjectYmlPath_ne_depsPath (root : String) :
    pqProjectYmlPath root ≠ pqDepsPath root := by
  unfold pqProjectYmlPath pqDepsPath
  exact strAppend_right_ne _ (by decide)

/-- After `pqSaveProjectIndex` of an index with an empty dependencies
map, the dependencies Parquet file is still absent (the write was
skipped and no other write touches that path). -/
theorem pq_save_skips_empty_deps (st : PqState) (idx : ProjectIndex)
    (nowIso : String) (hdeps : idx.dependencies = [])
    (hfresh : mlookup (pqDepsPath idx.projectPath) st.files = none) :
    mlookup (pqDepsPath idx.projectPath)
      (pqSaveProjectIndex st idx nowIso).files = none := by
  simp only [pqSaveProjectIndex]
  rw [mlookup_mset_ne (pqProjectInfoPath_ne_depsPath idx.projectPath),
    mlookup_mset_ne (pqFileHashesPath_ne_depsPath idx.projectPath)]
  rw [hdeps]
  rw [show dependenciesToParquetData [] = [] from rfl]
  rw [show ∀ f, writeParquetFile f (pqDepsPath idx.projectPath)
      ([] : List DepRow) .depsF = f from fun f => rfl]
  rw [mlookup_writeParquetFile_ne _ (pqModulesPath_ne_depsPath idx.projectPath),
    mlookup_writeParquetFile_ne _ (pqTypesPath_ne_depsPath idx.projectPath),
    mlookup_writeParquetFile_ne _ (pqSymbolsPath_ne_depsPath idx.projectPath)]
  rw [mlookup_pqSetupStructure_ne _ _ _ _
    (pqGitignorePath_ne_depsPath idx.projectPath)
    (pqProjectYmlPath_ne_depsPath idx.projectPath)]
  exact hfresh

/-- C1: the claim is the spec's guarantee that `save` followed by
`isValid` with no intervening file change returns `true`; the code
violates it.  Whenever the index's `dependencies` map is empty (and
no stale dependencies file is left over from an earlier save),
`ParquetCache.saveProjectIndex` skips writing the empty Parquet file
and the immediately following `isCacheValid` — with the tracked files
completely unchanged — returns `false`. -/
theorem c1_pq_save_then_isValid_false (st : PqState) (idx : ProjectIndex)
    (nowIso : String) (hdeps : idx.dependencies = [])
    (hfresh : mlookup (pqDepsPath idx.projectPath) st.files = none) :
    pqIsCacheValid (pqSaveProjectIndex st idx nowIso) idx.projectPath = false :=
  pqIsCacheValid_false_of_deps_missing _ _
    (pq_save_skips_empty_deps st idx nowIso hdeps hfresh)

/-- C1 witness: the failing input evaluated concretely — a realistic
index (one symbol, one type, one module, no dependency edges) saved
into a fresh world is immediately judged invalid although no tracked
file changed. -/
theorem c1_witness :
    pqIsCacheValid (pqSaveProjectIndex pqFresh idxNoDeps
      "2024-01-01T00:00:00.000Z") "/p" = false :=
  c1_pq_save_then_isValid_false pqFresh idxNoDeps "2024-01-01T00:00:00.000Z"
    rfl rfl

/-- C2 counterexample: two simultaneous `indexProject` calls for an
`Unindexed` root, interleaved at the `await` boundaries (both cache
checks run before either build completes), invoke the analyzer twice —
not exactly once — and both calls run to completion.  There is no
single-flight table in `TypeScriptAdapter.indexProject`. -/
theorem c2_counterexample_two_builds :
    (idxRunSched (idxStart 2) [0, 1, 0, 1, 0, 1]).builds = 2 ∧
    (idxRunSched (idxStart 2) [0, 1, 0, 1, 0, 1]).pcs =
      [IdxPC.finished, IdxPC.finished] := by
  decide

/-- C2 (amended): `indexProject` has no single-flight mechanism, so
overlapping calls for the same `Unindexed` root may each invoke the
analyzer; at-most-one-build holds only for calls that do not overlap:
a call whose cache check runs after another call's store finds the hot
entry and triggers no build (first conjunct: the fully sequential
two-call schedule performs exactly one build; second conjunct: once
the hot cache is populated and no call is mid-build, no schedule adds
a build). -/
theorem c2_sequential_single_build :
    ((idxRunSched (idxStart 2) [0, 0, 0, 1, 1, 1]).builds = 1 ∧
      (idxRunSched (idxStart 2) [0, 0, 0, 1, 1, 1]).pcs =
        [IdxPC.finished, IdxPC.finished]) ∧
    ∀ (s : IdxRun) (sched : List Nat), s.cached.isSome →
      (∀ pc ∈ s.pcs, pc = IdxPC.checkCache ∨ pc = IdxPC.finished) →
      (idxRunSched s sched).builds = s.builds := by
  constructor
  · exact ⟨by decide, by decide⟩
  · intro s sched hc hpcs
    exact idxRunSched_no_build sched s hc hpcs

/-- C2 witness: a call arriving when the index is already cached
performs no build. -/
theorem c2_witness :
    (idxRunSched { cached := some 7, builds := 3, pcs := [IdxPC.checkCache] }
      [0, 0]).builds = 3 :=
  c2_sequential_single_build.2
    { cached := some 7, builds := 3, pcs := [IdxPC.checkCache] } [0, 0] rfl
    (by intro pc h; rw [List.mem_singleton] at h; exact Or.inl h)

/-- A fresh `MemoryCache` with the constructor defaults
(`maxSize = 1000`, `defaultTTL = 10 * 60 * 1000`). -/
def mcEmpty : MemoryCache :=
  { cache := [], hits := 0, misses := 0, evictions := 0
    maxSize := 1000, defaultTTL := 600000 }

/-- C5 counterexample: with `ttl = 0` the source stores
`ttl || this.defaultTTL`, i.e. the default TTL, so a `get` strictly
later than `storedAt + 0` still returns the value instead of absent. -/
theorem c5_counterexample_ttl_zero :
    (mcGet (mcSet mcEmpty "k" 7 (some 0) 0) "k" 1).2 = some 7 ∧
    ((1 : Int) > 0 + 0) := by
  constructor
  · rfl
  · decide

/-- C5 (amended): for every nonzero ttl `t` (an explicit `0` is falsy
in `ttl || defaultTTL` and falls back to the default), after
`set(k, v, t)` at `t0` with no intervening set for `k`: a `get(k)` at
a time strictly later than `t0 + t` returns absent, increments the
miss counter and removes the entry (lazy expiry); a `get(k)` at a time
no later than `t0 + t` returns `v` and increments the hit counter. -/
theorem c5_set_then_get (mc : MemoryCache) (key : String) (v : Nat)
    (t t0 now : Int) (ht : t ≠ 0) :
    (now > t0 + t →
      (mcGet (mcSet mc key v (some t) t0) key now).2 = none ∧
      (mcGet (mcSet mc key v (some t) t0) key now).1.misses =
        (mcSet mc key v (some t) t0).misses + 1 ∧
      mlookup key (mcGet (mcSet mc key v (some t) t0) key now).1.cache = none) ∧
    (¬ now > t0 + t →
      (mcGet (mcSet mc key v (some t) t0) key now).2 = some v ∧
      (mcGet (mcSet mc key v (some t) t0) key now).1.hits =
        (mcSet mc key v (some t) t0).hits + 1 ∧
      (mcGet (mcSet mc key v (some t) t0) key now).1.misses =
        (mcSet mc key v (some t) t0).misses) := by
  have hres : (mcSet mc key v (some t) t0).cache =
      mset key ⟨v, t0, if t = 0 then mc.defaultTTL else t⟩
        (if mc.cache.length ≥ mc.maxSize then mcEvictOldest mc t0
          else mc).cache := rfl
  have hl : mlookup key (mcSet mc key v (some t) t0).cache =
      some ⟨v, t0, t⟩ := by
    rw [hres, if_neg ht]
    exact mlookup_mset_self _ _ _
  constructor
  · intro hexp
    refine ⟨?_, ?_, ?_⟩ <;>
      (unfold mcGet; rw [hl]; simp [hexp, mlookup_mdel_self])
  · intro hfresh
    refine ⟨?_, ?_, ?_⟩ <;>
      (unfold mcGet; rw [hl]; simp [hfresh])

/-- C5 witness: set with ttl 10 at time 0; a get at time 5 hits, a get
at time 11 misses and evicts. -/
theorem c5_witness :
    (mcGet (mcSet mcEmpty "k" 5 (some 10) 0) "k" 5).2 = some 5 ∧
    (mcGet (mcSet mcEmpty "k" 5 (some 10) 0) "k" 11).2 = none :=
  ⟨(((c5_set_then_get mcEmpty "k" 5 10 0 5 (by decide)).2 (by decide))).1,
    (((c5_set_then_get mcEmpty "k" 5 10 0 11 (by decide)).1 (by decide))).1⟩

/-- A cache at capacity (`maxSize = 1`) whose single entry was stored
at timestamp 5. -/
def mcTie : MemoryCache :=
  { cache := [("a", ⟨0, 5, 10⟩)], hits := 0, misses := 0, evictions := 0
    maxSize := 1, defaultTTL := 600000 }

/-- C6: the failing input evaluated.  `evictOldest` initializes
`oldestTime = Date.now()` and only selects entries with a strictly
smaller timestamp, so when the oldest entry was stored in the same
millisecond as the `set` call nothing is evicted, the eviction counter
stays 0, and the cache grows past `maxSize`. -/
theorem c6_set_at_capacity_no_eviction :
    mcTie.cache.length = mcTie.maxSize ∧
    (mcSet mcTie "b" 1 none 5).cache.length = 2 ∧
    (mcSet mcTie "b" 1 none 5).evictions = 0 ∧
    mcTie.maxSize = 1 := by
  decide

/-- Pattern-based removal (shared by `invalidate` and
`deleteByPattern`): the resulting map drops exactly the keys the
compiled regex accepts. -/
theorem pattern_removal_lookup (mc : MemoryCache) (pattern key : String) :
    mlookup key
      (((mkeys mc.cache).filter (fun k => gmatchStr pattern k)).foldl
        (fun acc k => mdel k acc) mc.cache) =
    if gmatchStr pattern key then none else mlookup key mc.cache := by
  rw [mlookup_foldl_mdel]
  by_cases hg : gmatchStr pattern key = true
  · by_cases hmem : key ∈ mkeys mc.cache
    · simp [List.mem_filter, hmem, hg]
    · have hnone := (mlookup_eq_none_iff key mc.cache).mpr hmem
      simp [List.mem_filter, hmem, hg, hnone]
  · simp [List.mem_filter, hg]

/-- C7 (amended): `invalidate(p)` removes exactly the keys the
compiled pattern matches — where `*` matches any run of characters
none of which is a line terminator and `?` matches any single
non-line-terminator character — leaves every other key bound to its
old entry, and changes none of the hit/miss/eviction counters. -/
theorem c7_invalidate_exact (mc : MemoryCache) (pattern : String) :
    (mcInvalidate mc pattern).hits = mc.hits ∧
    (mcInvalidate mc pattern).misses = mc.misses ∧
    (mcInvalidate mc pattern).evictions = mc.evictions ∧
    ∀ key, mlookup key (mcInvalidate mc pattern).cache =
      if gmatchStr pattern key then none else mlookup key mc.cache := by
  refine ⟨rfl, rfl, rfl, ?_⟩
  intro key
  exact pattern_removal_lookup mc pattern key

/-- A cache holding one key that contains a newline. -/
def mcNewline : MemoryCache :=
  { cache := [("a\nb", ⟨0, 0, 1000⟩)], hits := 0, misses := 0, evictions := 0
    maxSize := 1000, defaultTTL := 600000 }

/-- C7 counterexample: the key `"a\nb"` is a run of characters and so
matches the glob `*` under the claim's reading, but the compiled
JavaScript regex `^.*$` (no `s` flag) does not span the newline, so
`invalidate("*")` leaves the entry in place. -/
theorem c7_counterexample_newline :
    mlookup "a\nb" (mcInvalidate mcNewline "*").cache =
      some ⟨0, 0, 1000⟩ := by
  decide

/-- C8: the eviction counter counts only capacity-driven evictions:
a `get` never changes `evictions` — a found-but-expired entry is
removed with `misses` incremented instead — and the sweep's
expired-entry phase counts no evictions either (when occupancy after
it is within the 80% high-water mark, `performCleanup` leaves
`evictions` unchanged). -/
theorem c8_evictions_only_capacity (mc : MemoryCache) (key : String)
    (now : Int) :
    (mcGet mc key now).1.evictions = mc.evictions ∧
    (∀ e, mlookup key mc.cache = some e → now > e.timestamp + e.ttl →
      (mcGet mc key now).2 = none ∧
      (mcGet mc key now).1.misses = mc.misses + 1 ∧
      mlookup key (mcGet mc key now).1.cache = none) ∧
    ((mcRemoveExpired mc now).cache.length * 5 ≤ mc.maxSize * 4 →
      (mcPerformCleanup mc now).evictions = mc.evictions) := by
  refine ⟨?_, ?_, ?_⟩
  · unfold mcGet
    cases hml : mlookup key mc.cache with
    | none => rfl
    | some e =>
      by_cases hexp : now > e.timestamp + e.ttl
      · simp [hexp]
      · simp [hexp]
  · intro e he hexp
    refine ⟨?_, ?_, ?_⟩ <;>
      (unfold mcGet; rw [he]; simp [hexp, mlookup_mdel_self])
  · intro hocc
    unfold mcPerformCleanup
    rw [if_neg (by omega)]
    rfl

/-- C8 witness: a get on an expired entry (stored at 5, ttl 10, read
at 100) misses and leaves the eviction counter untouched. -/
theorem c8_witness :
    (mcGet mcTie "a" 100).1.evictions = mcTie.evictions ∧
    (mcGet mcTie "a" 100).1.misses = mcTie.misses + 1 :=
  ⟨(c8_evictions_only_capacity mcTie "a" 100).1,
    ((c8_evictions_only_capacity mcTie "a" 100).2.1 ⟨0, 5, 10⟩ rfl
      (by decide)).2.1⟩

theorem charToTok_map_lit (cs : List Char) (h1 : '*' ∉ cs) (h2 : '?' ∉ cs) :
    cs.map charToTok = cs.map GTok.lit := by
  refine List.map_congr_left ?_
  intro c hc
  unfold charToTok
  rw [if_neg (by rintro rfl; exact h1 hc), if_neg (by rintro rfl; exact h2 hc)]

theorem gmatch_all_lit (cs ds : List Char) :
    gmatch (cs.map GTok.lit) ds = true ↔ ds = cs := by
  induction cs generalizing ds with
  | nil => cases ds <;> simp [gmatch]
  | cons c ct ih =>
    cases ds with
    | nil => simp [gmatch]
    | cons d dt =>
      simp only [List.map_cons, gmatch, Bool.and_eq_true, decide_eq_true_eq,
        ih, List.cons.injEq]
      constructor
      · rintro ⟨h1, h2⟩
        exact ⟨h1.symm, h2⟩
      · rintro ⟨h1, h2⟩
        exact ⟨h1.symm, h2⟩

theorem gmatch_starFree_length (cs ds : List Char) (h : '*' ∉ cs)
    (hm : gmatch (cs.map charToTok) ds = true) : ds.length = cs.length := by
  induction cs generalizing ds with
  | nil =>
    cases ds with
    | nil => rfl
    | cons d dt => simp [gmatch] at hm
  | cons c ct ih =>
    have hcs : c ≠ '*' := by
      rintro rfl
      exact h (List.mem_cons_self _ _)
    have hct : '*' ∉ ct := fun hmm => h (List.mem_cons_of_mem _ hmm)
    cases ds with
    | nil =>
      rw [List.map_cons] at hm
      unfold charToTok at hm
      rw [if_neg hcs] at hm
      by_cases hq : c = '?'
      · rw [if_pos hq] at hm
        simp [gmatch] at hm
      · rw [if_neg hq] at hm
        simp [gmatch] at hm
    | cons d dt =>
      rw [List.map_cons] at hm
      unfold charToTok at hm
      rw [if_neg hcs] at hm
      by_cases hq : c = '?'
      · rw [if_pos hq] at hm
        simp only [gmatch, Bool.and_eq_true] at hm
        simp [ih dt hct hm.2]
      · rw [if_neg hq] at hm
        simp only [gmatch, Bool.and_eq_true] at hm
        simp [ih dt hct hm.2]

/-- C10 (amended): pattern matching is anchored and literal: a pattern
with no `*` and no `?` matches exactly the identical key (every other
regex metacharacter having been escaped), a pattern with no `*` never
matches a strictly longer key (so a proper star-free prefix of a key
removes nothing), and `deleteByPattern` removes exactly the matching
keys. -/
theorem c10_pattern_anchored_literal (p k : String) :
    ('*' ∉ p.data → '?' ∉ p.data → (gmatchStr p k = true ↔ k = p)) ∧
    ('*' ∉ p.data → p.data.length < k.data.length → gmatchStr p k = false) ∧
    (∀ mc : MemoryCache, mlookup k (mcDeleteByPattern mc p).1.cache =
      if gmatchStr p k then none else mlookup k mc.cache) := by
  refine ⟨?_, ?_, ?_⟩
  · intro h1 h2
    unfold gmatchStr patternToToks
    rw [charToTok_map_lit p.data h1 h2, gmatch_all_lit]
    constructor
    · intro hd
      exact String.ext hd
    · intro he
      rw [he]
  · intro h1 hlen
    cases hgb : gmatchStr p k with
    | false => rfl
    | true =>
      have := gmatch_starFree_length p.data k.data h1 hgb
      omega
  · intro mc
    exact pattern_removal_lookup mc p k

/-- A cache holding the single key `"a*?x"`. -/
def mcStarQ : MemoryCache :=
  { cache := [("a*?x", ⟨0, 0, 1000⟩)], hits := 0, misses := 0, evictions := 0
    maxSize := 1000, defaultTTL := 600000 }

/-- C10 counterexample: the pattern `"a*?"` is a proper prefix of the
key `"a*?x"` and does not end in `*`, yet `deleteByPattern` removes
the key (the compiled regex `^a.*.$` matches it through the inner
`.*`), so "a pattern that is a proper prefix of a key, without a
trailing `*`, removes nothing" fails as stated. -/
theorem c10_counterexample_inner_star :
    (mcDeleteByPattern mcStarQ "a*?").1.cache = [] ∧
    (mcDeleteByPattern mcStarQ "a*?").2 = 1 ∧
    "a*?".data = "a*?x".data.take 3 ∧
    ("a*?" : String) ≠ "a*?x" ∧
    "a*?".data.getLast? = some '?' := by
  decide

/-- C10 witness: a fully literal pattern (no `*`, no `?`) matches
exactly itself, and a star-free proper prefix does not match the
longer key. -/
theorem c10_witness :
    gmatchStr "ab" "ab" = true ∧ gmatchStr "ab" "abc" = false :=
  ⟨((c10_pattern_anchored_literal "ab" "ab").1 (by decide) (by decide)).mpr rfl,
    (c10_pattern_anchored_literal "ab" "abc").2.1 (by decide) (by decide)⟩
